import Mathlib

/-!
Verification of the endpoint compliance agent's data-collection core.

The development shallowly embeds the Go sources:
  * `collector/osquery.go`  — the osquery-backed collector and its daemon
    lifecycle manager (`EnsureOSQueryRunning`, `startOSQueryDaemon`,
    `findOSQueryBinary`, `installOSQuery`, the query templates);
  * `collector/fallback.go` — the fallback text collector
    (`CollectUsers`, `CollectProcesses`, `CollectOpenPorts`,
    `CollectPackages`);
  * `main.go` — the once-per-run collector selection.

External effects (shelled-out commands, socket queries, the filesystem)
are modelled by an explicit environment record supplying each observable
outcome, and every operation additionally returns the list of effects it
performed, in order.  Pure parsing loops are translated line by line from
the Go code.
-/

namespace ComplianceAgent

/-! ## Go string primitives

The Go standard-library string functions used by the collectors,
re-implemented structurally over `List Char` so that everything reduces
in the kernel.
-/

/-- `strings.Split` on a single-character separator, over `List Char`:
splits at every occurrence of the separator, keeping empty segments
(Go semantics for a non-empty separator). -/
def splitPred (p : Char → Bool) : List Char → List (List Char)
  | [] => [[]]
  | x :: xs =>
    if p x then [] :: splitPred p xs
    else
      match splitPred p xs with
      | [] => [[x]]
      | h :: t => (x :: h) :: t

/-- `strings.Split s (String.singleton c)` for a one-character separator. -/
def splitGo (s : String) (c : Char) : List String :=
  (splitPred (fun x => x = c) s.data).map String.mk

/-- `strings.Fields`: split around runs of whitespace, dropping empties. -/
def fieldsGo (s : String) : List String :=
  ((splitPred Char.isWhitespace s.data).filter (fun f => f ≠ [])).map String.mk

/-- Substring search over lists of characters (helper for `strContains`). -/
def subSearch (sub : List Char) : List Char → Bool
  | [] => sub.isEmpty
  | c :: cs => sub.isPrefixOf (c :: cs) || subSearch sub cs

/-- `strings.Contains`. -/
def strContains (s sub : String) : Bool :=
  subSearch sub.data s.data

/-- `strings.HasPrefix`. -/
def hasPrefixGo (s pre : String) : Bool :=
  pre.data.isPrefixOf s.data

/-- `strings.Join` with a separator. -/
def joinSep (sep : String) : List String → String
  | [] => ""
  | [x] => x
  | x :: xs => x ++ sep ++ joinSep sep xs

/-- Value of a digit run (helper for `atoi`). -/
def digitsVal (cs : List Char) : Nat :=
  cs.foldl (fun a c => a * 10 + (c.toNat - 48)) 0

/-- A non-empty all-digit run, or `none`. -/
def parseDigitRun (cs : List Char) : Option Nat :=
  if cs = [] then none
  else if cs.all Char.isDigit then some (digitsVal cs) else none

/-- `strconv.Atoi`: optional sign, then decimal digits only; errors
(`none`) on empty input, a stray character, or an int64 range overflow. -/
def atoi (s : String) : Option Int :=
  match s.data with
  | '+' :: ds =>
    (parseDigitRun ds).bind fun n =>
      if n ≤ 9223372036854775807 then some (n : Int) else none
  | '-' :: ds =>
    (parseDigitRun ds).bind fun n =>
      if n ≤ 9223372036854775808 then some (-(n : Int)) else none
  | ds =>
    (parseDigitRun ds).bind fun n =>
      if n ≤ 9223372036854775807 then some (n : Int) else none

/-- Value of the maximal leading digit run, `0` when there is none
(helper for `sscanfInt`). -/
def leadingDigits (cs : List Char) : Int :=
  ((cs.takeWhile Char.isDigit).foldl (fun a c => a * 10 + (c.toNat - 48)) 0 : Nat)

/-- `fmt.Sscanf(s, "%d", &p)` as used on osquery's port strings: skip
leading whitespace, read an optional sign and the maximal digit run;
on a scan failure the Go variable keeps its zero value, so no digits
yields `0`. -/
def sscanfInt (s : String) : Int :=
  match s.data.dropWhile Char.isWhitespace with
  | '-' :: rest => -(leadingDigits rest)
  | '+' :: rest => leadingDigits rest
  | rest => leadingDigits rest

/-! ## Data model -/

/-- A collected row: Go's `map[string]string`, built here as the literal
association list the collector constructs. -/
abbrev Row := List (String × String)

/-- `runtime.GOOS`, restricted to the families the collectors
distinguish. -/
inductive OS
  | darwin
  | linux
  | other
deriving DecidableEq

/-- An observable external effect of a collector operation, in the order
performed. -/
inductive Effect
  | healthCheck
  | sleep
  | mkdirAll (dir : String)
  | lookPath (bin : String)
  | statProbe (path : String)
  | runCmd (bin : String) (args : List String)
  | spawnDaemon (path : String)
  | socketQuery (q : String)
deriving DecidableEq

def isHealthCheckEff : Effect → Bool
  | .healthCheck => true
  | _ => false

def isSpawnEff : Effect → Bool
  | .spawnDaemon _ => true
  | _ => false

def isSocketEff : Effect → Bool
  | .socketQuery _ => true
  | _ => false

/-- Effects that only locate, install or prepare — no health check, no
sleep, no daemon spawn, no socket traffic. -/
def isProvisionEff : Effect → Bool
  | .mkdirAll _ => true
  | .lookPath _ => true
  | .statProbe _ => true
  | .runCmd _ _ => true
  | _ => false

/-! ## Fallback text collector (`collector/fallback.go`)

Each operation takes an `FBEnv` describing the outcomes of the external
commands it may run, and returns its Go result (rows/ports plus the
returned error, `none` meaning Go's `nil`) together with the effect
trace. -/

/-- Environment for the fallback collector: `runtime.GOOS`,
`runtime.GOARCH`, the stdout or invocation error of each shelled-out
command, and whether `exec.LookPath` finds each package manager. -/
structure FBEnv where
  goos : OS
  goarch : String
  usersCmd : Except String String
  psCmd : Except String String
  netstatCmd : Except String String
  brewPresent : Bool
  brewCmd : Except String String
  dpkgPresent : Bool
  dpkgCmd : Except String String

/-- The row built for one line of `dscl . list /Users` output
(macOS branch of `CollectUsers`; uid/gid/shell are placeholders). -/
def mkDarwinUserRow (line : String) : Row :=
  [("username", line), ("uid", "0"), ("gid", "0"),
   ("description", "User"), ("directory", "/Users/" ++ line),
   ("shell", "/bin/bash")]

/-- The row built from the `:`-split fields of one `getent passwd` line
(Linux branch of `CollectUsers`; requires ≥ 7 fields at the call site). -/
def mkLinuxUserRow (parts : List String) : Row :=
  [("username", parts.getD 0 ""), ("uid", parts.getD 2 ""),
   ("gid", parts.getD 3 ""), ("description", parts.getD 4 ""),
   ("directory", parts.getD 5 ""), ("shell", parts.getD 6 "")]

/-- The per-line loop of `CollectUsers`: skip empty lines; on macOS every
line is a username; on Linux accept only lines with at least 7
colon-separated fields. -/
def usersLoop (goos : OS) : List String → List Row
  | [] => []
  | line :: rest =>
    if line = "" then usersLoop goos rest
    else if goos = OS.darwin then mkDarwinUserRow line :: usersLoop goos rest
    else
      let parts := splitGo line ':'
      if parts.length ≥ 7 then mkLinuxUserRow parts :: usersLoop goos rest
      else usersLoop goos rest

/-- `FallbackCollector.CollectUsers`: on darwin/linux run the account
listing command; an invocation error is returned together with the (nil)
accumulated slice; otherwise parse line by line.  Any other GOOS falls
through the switch and returns `(nil, nil)`. -/
def collectUsersFB (env : FBEnv) : (List Row × Option String) × List Effect :=
  match env.goos with
  | OS.other => (([], none), [])
  | _ =>
    let cmdEff : Effect :=
      if env.goos = OS.darwin then Effect.runCmd "dscl" [".", "list", "/Users"]
      else Effect.runCmd "getent" ["passwd"]
    match env.usersCmd with
    | .error e => (([], some e), [cmdEff])
    | .ok out => ((usersLoop env.goos (splitGo out '\n'), none), [cmdEff])

/-- The row built from the whitespace fields of one `ps aux` line
(requires ≥ 11 fields at the call site). -/
def mkProcRow (fields : List String) : Row :=
  [("pid", fields.getD 1 ""), ("name", fields.getD 10 ""),
   ("path", fields.getD 10 ""),
   ("cmdline", joinSep " " (fields.drop 10)), ("uid", fields.getD 0 "")]

/-- The indexed per-line loop of `CollectProcesses`: skip the line at
index 0 (the `ps aux` header), empty lines, and everything once `count`
reaches the limit; accept lines with ≥ 11 whitespace fields, counting
each accepted line. -/
def psLoopIdx (limit : Int) : Nat → Int → List String → List Row
  | _, _, [] => []
  | i, count, line :: rest =>
    if i = 0 ∨ line = "" ∨ count ≥ limit then psLoopIdx limit (i + 1) count rest
    else if (fieldsGo line).length ≥ 11 then
      mkProcRow (fieldsGo line) :: psLoopIdx limit (i + 1) (count + 1) rest
    else psLoopIdx limit (i + 1) count rest

/-- The parsing part of `CollectProcesses` applied to the split output
lines. -/
def collectProcessesLines (limit : Int) (lines : List String) : List Row :=
  psLoopIdx limit 0 0 lines

/-- `FallbackCollector.CollectProcesses`: on darwin/linux run `ps aux`;
an invocation error is returned with the (nil) slice; otherwise parse with
the header/limit loop.  Any other GOOS returns `(nil, nil)`. -/
def collectProcessesFB (env : FBEnv) (limit : Int) :
    (List Row × Option String) × List Effect :=
  match env.goos with
  | OS.other => (([], none), [])
  | _ =>
    match env.psCmd with
    | .error e => (([], some e), [Effect.runCmd "ps" ["aux"]])
    | .ok out =>
      ((collectProcessesLines limit (splitGo out '\n'), none),
       [Effect.runCmd "ps" ["aux"]])

/-- The per-line loop of `CollectOpenPorts`: for lines containing
`LISTEN` or `tcp` with ≥ 4 whitespace fields, split the fourth field on
`:`' take the last segment, `Atoi` it, and keep only positive values. -/
def portsLoop : List String → List Int
  | [] => []
  | line :: rest =>
    if strContains line "LISTEN" || strContains line "tcp" then
      if (fieldsGo line).length ≥ 4 then
        let addr := (fieldsGo line).getD 3 ""
        if strContains addr ":" then
          let parts := splitGo addr ':'
          if parts.length > 1 then
            match atoi (parts.getLastD "") with
            | some port =>
              if port > 0 then port :: portsLoop rest else portsLoop rest
            | none => portsLoop rest
          else portsLoop rest
        else portsLoop rest
      else portsLoop rest
    else portsLoop rest

/-- `FallbackCollector.CollectOpenPorts`: on darwin/linux run
`netstat -tuln`; an invocation error is returned with the (nil) slice;
otherwise parse line by line.  Any other GOOS returns `(nil, nil)`. -/
def collectOpenPortsFB (env : FBEnv) : (List Int × Option String) × List Effect :=
  match env.goos with
  | OS.other => (([], none), [])
  | _ =>
    match env.netstatCmd with
    | .error e => (([], some e), [Effect.runCmd "netstat" ["-tuln"]])
    | .ok out =>
      ((portsLoop (splitGo out '\n'), none), [Effect.runCmd "netstat" ["-tuln"]])

/-- The per-line loop of the Homebrew branch of `CollectPackages`: skip
empty lines and everything once `count` reaches the limit; every other
line is a formula name with version reported as `unknown`. -/
def brewLoop (goarch : String) (limit : Int) (count : Int) : List String → List Row
  | [] => []
  | line :: rest =>
    if line = "" ∨ count ≥ limit then brewLoop goarch limit count rest
    else
      [("name", line), ("version", "unknown"), ("source", "homebrew"),
       ("arch", goarch)] :: brewLoop goarch limit (count + 1) rest

/-- The per-line loop of the dpkg branch of `CollectPackages`: accept
only lines starting with `ii` while `count < limit` and having ≥ 3
whitespace fields, counting each accepted line. -/
def dpkgLoop (goarch : String) (limit : Int) (count : Int) : List String → List Row
  | [] => []
  | line :: rest =>
    if hasPrefixGo line "ii" ∧ count < limit then
      if (fieldsGo line).length ≥ 3 then
        [("name", (fieldsGo line).getD 1 ""), ("version", (fieldsGo line).getD 2 ""),
         ("source", "dpkg"), ("arch", goarch)] :: dpkgLoop goarch limit (count + 1) rest
      else dpkgLoop goarch limit count rest
    else dpkgLoop goarch limit count rest

/-- `FallbackCollector.CollectPackages`: on darwin, probe for `brew` and
list formulas; on linux, probe for `dpkg` and parse `dpkg -l`; a missing
package manager or a command error leaves the slice empty, and the
returned error is always `nil`.  Any other GOOS returns `(nil, nil)`. -/
def collectPackagesFB (env : FBEnv) (limit : Int) :
    (List Row × Option String) × List Effect :=
  match env.goos with
  | OS.darwin =>
    if env.brewPresent then
      match env.brewCmd with
      | .ok out =>
        ((brewLoop env.goarch limit 0 (splitGo out '\n'), none),
         [Effect.lookPath "brew", Effect.runCmd "brew" ["list", "--formula"]])
      | .error _ =>
        (([], none),
         [Effect.lookPath "brew", Effect.runCmd "brew" ["list", "--formula"]])
    else (([], none), [Effect.lookPath "brew"])
  | OS.linux =>
    if env.dpkgPresent then
      match env.dpkgCmd with
      | .ok out =>
        ((dpkgLoop env.goarch limit 0 (splitGo out '\n'), none),
         [Effect.lookPath "dpkg", Effect.runCmd "dpkg" ["-l"]])
      | .error _ =>
        (([], none),
         [Effect.lookPath "dpkg", Effect.runCmd "dpkg" ["-l"]])
    else (([], none), [Effect.lookPath "dpkg"])
  | OS.other => (([], none), [])

/-! ## OSQuery-backed collector (`collector/osquery.go`) -/

/-- The fixed users query of `OSQueryCollector.CollectUsers`. -/
def usersQuery : String :=
  "SELECT username, uid, gid, description, directory, shell FROM users;"

/-- The query text of `OSQueryCollector.CollectProcesses`: a non-positive
limit is replaced by 50 before interpolation. -/
def processesQuery (limit : Int) : String :=
  let l := if limit ≤ 0 then (50 : Int) else limit
  "SELECT pid, name, path, cmdline, uid FROM processes LIMIT " ++ toString l ++ ";"

/-- The query text of `OSQueryCollector.CollectPackages`: a non-positive
limit is replaced by 100 before interpolation. -/
def packagesQuery (limit : Int) : String :=
  let l := if limit ≤ 0 then (100 : Int) else limit
  "SELECT name, version, source, arch FROM packages LIMIT " ++ toString l ++ ";"

/-- The fixed listening-ports query of `OSQueryCollector.CollectOpenPorts`. -/
def portsQuery : String :=
  "SELECT port FROM listening_ports WHERE address != '::' AND port > 0;"

/-- The row-postprocessing of `OSQueryCollector.CollectOpenPorts`: scan
each row's `port` string with `Sscanf %d` and keep only positive values. -/
def collectOpenPortsOSQ (rows : List Row) : List Int :=
  rows.filterMap fun r =>
    let p := sscanfInt ((r.lookup "port").getD "")
    if p > 0 then some p else none

/-! ## Daemon lifecycle manager (`EnsureOSQueryRunning` and helpers)

The environment fixes every externally observable outcome: the two
health-check results, directory creation, binary lookup and probing,
package-manager presence and installation outcomes, and the daemon
spawn result. -/

/-- Environment for one `EnsureOSQueryRunning` pass. -/
structure OSQEnv where
  healthOk1 : Bool
  healthOk2 : Bool
  socketDir : String
  mkdirOk : Bool
  lookPathOsqueryd : Option String
  existingPaths : List String
  goos : OS
  brewPresent : Bool
  brewInstallOk : Bool
  aptPresent : Bool
  aptUpdateOk : Bool
  aptInstallOk : Bool
  yumPresent : Bool
  yumInstallOk : Bool
  spawnOk : Bool

/-- The fixed well-known install locations probed by
`findOSQueryBinary`. -/
def wellKnownPaths : List String :=
  ["/usr/local/bin/osqueryd", "/usr/bin/osqueryd",
   "/opt/homebrew/bin/osqueryd", "/usr/local/opt/osquery/bin/osqueryd"]

/-- The `os.Stat` probe loop of `findOSQueryBinary`: stat candidates in
order and stop at the first existing one. -/
def probePaths (existing : List String) : List String → Option String × List Effect
  | [] => (none, [])
  | p :: ps =>
    if existing.contains p then (some p, [Effect.statProbe p])
    else
      ((probePaths existing ps).1,
       Effect.statProbe p :: (probePaths existing ps).2)

/-- `installOSQuery`: dispatch on GOOS; darwin uses Homebrew, linux tries
apt then yum, anything else is `unsupported OS`. -/
def installOSQuery (env : OSQEnv) : Except String String × List Effect :=
  match env.goos with
  | OS.darwin =>
    if env.brewPresent then
      ((if env.brewInstallOk then Except.ok "/opt/homebrew/bin/osqueryd"
        else Except.error "homebrew install failed"),
       [Effect.lookPath "brew", Effect.runCmd "brew" ["install", "osquery"]])
    else (Except.error "homebrew not available", [Effect.lookPath "brew"])
  | OS.linux =>
    if env.aptPresent then
      if env.aptUpdateOk then
        ((if env.aptInstallOk then Except.ok "/usr/bin/osqueryd"
          else Except.error "apt install failed"),
         [Effect.lookPath "apt", Effect.runCmd "sudo" ["apt", "update"],
          Effect.runCmd "sudo" ["apt", "install", "-y", "osquery"]])
      else
        (Except.error "apt update failed",
         [Effect.lookPath "apt", Effect.runCmd "sudo" ["apt", "update"]])
    else if env.yumPresent then
      ((if env.yumInstallOk then Except.ok "/usr/bin/osqueryd"
        else Except.error "yum install failed"),
       [Effect.lookPath "apt", Effect.lookPath "yum",
        Effect.runCmd "sudo" ["yum", "install", "-y", "osquery"]])
    else
      (Except.error "no package manager found (apt/yum)",
       [Effect.lookPath "apt", Effect.lookPath "yum"])
  | OS.other => (Except.error "unsupported OS", [])

/-- The candidate binary locations of `findOSQueryBinary`: a PATH hit is
prepended to the fixed well-known list. -/
def candidatePaths (env : OSQEnv) : List String :=
  match env.lookPathOsqueryd with
  | some p => p :: wellKnownPaths
  | none => wellKnownPaths

/-- `findOSQueryBinary`: the candidates are stat-probed in order, and
only if none exists is the installer attempted. -/
def findOSQueryBinary (env : OSQEnv) : Except String String × List Effect :=
  match (probePaths env.existingPaths (candidatePaths env)).1 with
  | some p =>
    (Except.ok p,
     Effect.lookPath "osqueryd" ::
       (probePaths env.existingPaths (candidatePaths env)).2)
  | none =>
    ((installOSQuery env).1,
     Effect.lookPath "osqueryd" ::
       (probePaths env.existingPaths (candidatePaths env)).2 ++
         (installOSQuery env).2)

/-- `startOSQueryDaemon`: create the socket directory, locate (or
install) the binary, spawn it detached with the fixed argument set. -/
def startOSQueryDaemon (env : OSQEnv) : Except String Unit × List Effect :=
  if env.mkdirOk = false then
    (Except.error "failed to create socket directory",
     [Effect.mkdirAll env.socketDir])
  else
    match (findOSQueryBinary env).1 with
    | .error e =>
      (Except.error ("osquery not found: " ++ e),
       Effect.mkdirAll env.socketDir :: (findOSQueryBinary env).2)
    | .ok p =>
      if env.spawnOk then
        (Except.ok (),
         Effect.mkdirAll env.socketDir ::
           (findOSQueryBinary env).2 ++ [Effect.spawnDaemon p])
      else
        (Except.error "failed to start osquery daemon",
         Effect.mkdirAll env.socketDir ::
           (findOSQueryBinary env).2 ++ [Effect.spawnDaemon p])

/-- `EnsureOSQueryRunning`: a passing initial health-check returns
immediately; otherwise start the daemon (failure is terminal), sleep the
fixed settle delay, and re-run the health-check exactly once. -/
def ensureOSQueryRunning (env : OSQEnv) : Except String Unit × List Effect :=
  if env.healthOk1 then (Except.ok (), [Effect.healthCheck])
  else
    match (startOSQueryDaemon env).1 with
    | .error e =>
      (Except.error ("osquery unavailable: " ++ e),
       Effect.healthCheck :: (startOSQueryDaemon env).2)
    | .ok _ =>
      if env.healthOk2 then
        (Except.ok (),
         Effect.healthCheck ::
           (startOSQueryDaemon env).2 ++ [Effect.sleep, Effect.healthCheck])
      else
        (Except.error "osquery failed to start properly",
         Effect.healthCheck ::
           (startOSQueryDaemon env).2 ++ [Effect.sleep, Effect.healthCheck])

/-! ## Collector selection in `main.go` (run facade) -/

/-- Which implementation backs the facade. -/
inductive CKind
  | osq
  | fb
deriving DecidableEq

/-- The facade's four operations, in the order `main` performs them. -/
inductive Op
  | users
  | processes
  | ports
  | packages
deriving DecidableEq

/-- `main`'s once-per-run selection: keep the osquery collector iff
`EnsureOSQueryRunning` succeeded, else rebind to the fallback. -/
def selectCollector (ensureRes : Except String Unit) : CKind :=
  match ensureRes with
  | .ok _ => CKind.osq
  | .error _ => CKind.fb

/-- The effect trace of one facade operation under the selected
implementation, with `main`'s literal limits (25 processes, 200
packages). -/
def opTrace (k : CKind) (env : FBEnv) : Op → List Effect
  | Op.users =>
    match k with
    | CKind.osq => [Effect.socketQuery usersQuery]
    | CKind.fb => (collectUsersFB env).2
  | Op.processes =>
    match k with
    | CKind.osq => [Effect.socketQuery (processesQuery 25)]
    | CKind.fb => (collectProcessesFB env 25).2
  | Op.ports =>
    match k with
    | CKind.osq => [Effect.socketQuery portsQuery]
    | CKind.fb => (collectOpenPortsFB env).2
  | Op.packages =>
    match k with
    | CKind.osq => [Effect.socketQuery (packagesQuery 200)]
    | CKind.fb => (collectPackagesFB env 200).2

/-- The post-selection effect trace of one run of `main`: the collector
chosen from the bootstrap outcome serves all four operations in order. -/
def mainOpsTrace (osqEnv : OSQEnv) (env : FBEnv) : List Effect :=
  let k := selectCollector (ensureOSQueryRunning osqEnv).1
  opTrace k env Op.users ++ opTrace k env Op.processes ++
    opTrace k env Op.ports ++ opTrace k env Op.packages

/-! ## Concrete sample inputs for witnesses and counterexamples -/

/-- The netstat line of end-to-end scenario 3. -/
def sampleNetstatLine : String := "tcp 0 0 0.0.0.0:8080 0.0.0.0:* LISTEN"

/-- A `ps aux` output: the header line plus one 11-field process line. -/
def samplePsOut : String :=
  "USER PID %CPU %MEM VSZ RSS TT STAT STARTED TIME COMMAND\nroot 1 0.0 0.1 4 1 ? Ss Jan01 0:00 /sbin/init"

/-- A Linux fallback environment whose commands all succeed with small
well-formed outputs. -/
def envLinuxSample : FBEnv :=
  { goos := OS.linux, goarch := "amd64",
    usersCmd := Except.ok "root:x:0:0:root:/root:/bin/bash",
    psCmd := Except.ok samplePsOut,
    netstatCmd := Except.ok sampleNetstatLine,
    brewPresent := false, brewCmd := Except.ok "",
    dpkgPresent := true, dpkgCmd := Except.ok "ii pkg 1.0 amd64 a package" }

/-- A Linux fallback environment where every shelled-out command fails. -/
def envCmdsFail : FBEnv :=
  { goos := OS.linux, goarch := "amd64",
    usersCmd := Except.error "exec: getent: not found",
    psCmd := Except.error "exec: ps: not found",
    netstatCmd := Except.error "exec: netstat: not found",
    brewPresent := true, brewCmd := Except.error "exec: brew: failed",
    dpkgPresent := true, dpkgCmd := Except.error "exec: dpkg: failed" }

/-- A fallback environment on an unrecognized platform. -/
def envOtherOS : FBEnv :=
  { goos := OS.other, goarch := "riscv64",
    usersCmd := Except.ok "root:x:0:0:root:/root:/bin/bash",
    psCmd := Except.ok samplePsOut,
    netstatCmd := Except.ok sampleNetstatLine,
    brewPresent := true, brewCmd := Except.ok "wget",
    dpkgPresent := true, dpkgCmd := Except.ok "ii pkg 1.0 amd64 a package" }

/-- A darwin fallback environment with Homebrew absent. -/
def envDarwinNoBrew : FBEnv :=
  { goos := OS.darwin, goarch := "arm64",
    usersCmd := Except.ok "alice\nbob",
    psCmd := Except.ok samplePsOut,
    netstatCmd := Except.ok sampleNetstatLine,
    brewPresent := false, brewCmd := Except.error "never run",
    dpkgPresent := false, dpkgCmd := Except.error "never run" }

/-- A lifecycle environment whose initial health-check already passes. -/
def osqEnvHealthy : OSQEnv :=
  { healthOk1 := true, healthOk2 := false, socketDir := "/var/osquery",
    mkdirOk := false, lookPathOsqueryd := none, existingPaths := [],
    goos := OS.linux, brewPresent := false, brewInstallOk := false,
    aptPresent := false, aptUpdateOk := false, aptInstallOk := false,
    yumPresent := false, yumInstallOk := false, spawnOk := false }

/-- A lifecycle environment where the first health-check fails, the
binary is found in PATH, the spawn succeeds, and the re-check passes. -/
def osqEnvLaunch : OSQEnv :=
  { healthOk1 := false, healthOk2 := true, socketDir := "/var/osquery",
    mkdirOk := true, lookPathOsqueryd := some "/usr/sbin/osqueryd",
    existingPaths := ["/usr/sbin/osqueryd"],
    goos := OS.linux, brewPresent := false, brewInstallOk := false,
    aptPresent := false, aptUpdateOk := false, aptInstallOk := false,
    yumPresent := false, yumInstallOk := false, spawnOk := true }

/-- A lifecycle environment matching end-to-end scenario 2: backend
unreachable, binary absent everywhere, no package manager present. -/
def osqEnvInstallFail : OSQEnv :=
  { healthOk1 := false, healthOk2 := false, socketDir := "/var/osquery",
    mkdirOk := true, lookPathOsqueryd := none, existingPaths := [],
    goos := OS.linux, brewPresent := false, brewInstallOk := false,
    aptPresent := false, aptUpdateOk := false, aptInstallOk := false,
    yumPresent := false, yumInstallOk := false, spawnOk := false }

/-! ## Lemmas about the fallback parsing loops -/

theorem psLoopIdx_skip_of_ge (limit : Int) :
    ∀ (lines : List String) (i : Nat) (count : Int), limit ≤ count →
      psLoopIdx limit i count lines = [] := by
  intro lines
  induction lines with
  | nil => intro i count _; rfl
  | cons line rest ih =>
    intro i count h
    have hc : i = 0 ∨ line = "" ∨ count ≥ limit := Or.inr (Or.inr h)
    simp only [psLoopIdx, if_pos hc]
    exact ih (i + 1) count h

theorem psLoopIdx_length_le (limit : Int) :
    ∀ (lines : List String) (i : Nat) (count : Int),
      (psLoopIdx limit i count lines).length ≤ (limit - count).toNat := by
  intro lines
  induction lines with
  | nil => intro i count; simp [psLoopIdx]
  | cons line rest ih =>
    intro i count
    by_cases hc : i = 0 ∨ line = "" ∨ count ≥ limit
    · simp only [psLoopIdx, if_pos hc]
      exact ih (i + 1) count
    · have hlt : count < limit := by
        by_contra hh
        exact hc (Or.inr (Or.inr (by omega)))
      simp only [psLoopIdx, if_neg hc]
      by_cases hf : (fieldsGo line).length ≥ 11
      · simp only [if_pos hf, List.length_cons]
        have := ih (i + 1) (count + 1)
        omega
      · simp only [if_neg hf]
        exact ih (i + 1) count

theorem brewLoop_skip_of_ge (goarch : String) (limit : Int) :
    ∀ (lines : List String) (count : Int), limit ≤ count →
      brewLoop goarch limit count lines = [] := by
  intro lines
  induction lines with
  | nil => intro count _; rfl
  | cons line rest ih =>
    intro count h
    have hc : line = "" ∨ count ≥ limit := Or.inr h
    simp only [brewLoop, if_pos hc]
    exact ih count h

theorem brewLoop_length_le (goarch : String) (limit : Int) :
    ∀ (lines : List String) (count : Int),
      (brewLoop goarch limit count lines).length ≤ (limit - count).toNat := by
  intro lines
  induction lines with
  | nil => intro count; simp [brewLoop]
  | cons line rest ih =>
    intro count
    by_cases hc : line = "" ∨ count ≥ limit
    · simp only [brewLoop, if_pos hc]
      exact ih count
    · have hlt : count < limit := by
        by_contra hh
        exact hc (Or.inr (by omega))
      simp only [brewLoop, if_neg hc, List.length_cons]
      have := ih (count + 1)
      omega

theorem dpkgLoop_skip_of_ge (goarch : String) (limit : Int) :
    ∀ (lines : List String) (count : Int), limit ≤ count →
      dpkgLoop goarch limit count lines = [] := by
  intro lines
  induction lines with
  | nil => intro count _; rfl
  | cons line rest ih =>
    intro count h
    have hc : ¬(hasPrefixGo line "ii" = true ∧ count < limit) := by
      rintro ⟨-, hlt⟩; omega
    simp only [dpkgLoop, if_neg hc]
    exact ih count h

theorem dpkgLoop_length_le (goarch : String) (limit : Int) :
    ∀ (lines : List String) (count : Int),
      (dpkgLoop goarch limit count lines).length ≤ (limit - count).toNat := by
  intro lines
  induction lines with
  | nil => intro count; simp [dpkgLoop]
  | cons line rest ih =>
    intro count
    by_cases hc : hasPrefixGo line "ii" = true ∧ count < limit
    · simp only [dpkgLoop, if_pos hc]
      by_cases hf : (fieldsGo line).length ≥ 3
      · simp only [if_pos hf, List.length_cons]
        have := ih (count + 1)
        have hlt := hc.2
        omega
      · simp only [if_neg hf]
        exact ih count
    · simp only [dpkgLoop, if_neg hc]
      exact ih count

theorem psLoopIdx_idx_irrel (limit : Int) :
    ∀ (lines : List String) (i j : Nat) (count : Int), i ≠ 0 → j ≠ 0 →
      psLoopIdx limit i count lines = psLoopIdx limit j count lines := by
  intro lines
  induction lines with
  | nil => intros; rfl
  | cons line rest ih =>
    intro i j count hi hj
    by_cases hc : line = "" ∨ count ≥ limit
    · have h1 : i = 0 ∨ line = "" ∨ count ≥ limit := Or.inr hc
      have h2 : j = 0 ∨ line = "" ∨ count ≥ limit := Or.inr hc
      simp only [psLoopIdx, if_pos h1, if_pos h2]
      exact ih (i + 1) (j + 1) count (Nat.succ_ne_zero i) (Nat.succ_ne_zero j)
    · have h1 : ¬(i = 0 ∨ line = "" ∨ count ≥ limit) := by
        rintro (h | h)
        · exact hi h
        · exact hc h
      have h2 : ¬(j = 0 ∨ line = "" ∨ count ≥ limit) := by
        rintro (h | h)
        · exact hj h
        · exact hc h
      simp only [psLoopIdx, if_neg h1, if_neg h2]
      by_cases hf : (fieldsGo line).length ≥ 11
      · simp only [if_pos hf]
        rw [ih (i + 1) (j + 1) (count + 1) (Nat.succ_ne_zero i) (Nat.succ_ne_zero j)]
      · simp only [if_neg hf]
        exact ih (i + 1) (j + 1) count (Nat.succ_ne_zero i) (Nat.succ_ne_zero j)

theorem psLoopIdx_remove_bad (limit : Int) (line : String)
    (hbad : (fieldsGo line).length < 11) :
    ∀ (xs ys : List String) (i : Nat) (count : Int), i ≠ 0 →
      psLoopIdx limit i count (xs ++ line :: ys) =
        psLoopIdx limit i count (xs ++ ys) := by
  intro xs
  induction xs with
  | nil =>
    intro ys i count hi
    simp only [List.nil_append]
    by_cases hc : line = "" ∨ count ≥ limit
    · have h1 : i = 0 ∨ line = "" ∨ count ≥ limit := Or.inr hc
      simp only [psLoopIdx, if_pos h1]
      exact psLoopIdx_idx_irrel limit ys (i + 1) i count (Nat.succ_ne_zero i) hi
    · have h1 : ¬(i = 0 ∨ line = "" ∨ count ≥ limit) := by
        rintro (h | h)
        · exact hi h
        · exact hc h
      have hf : ¬((fieldsGo line).length ≥ 11) := by omega
      simp only [psLoopIdx, if_neg h1, if_neg hf]
      exact psLoopIdx_idx_irrel limit ys (i + 1) i count (Nat.succ_ne_zero i) hi
  | cons x xs ih =>
    intro ys i count hi
    simp only [List.cons_append, psLoopIdx]
    by_cases hc : i = 0 ∨ x = "" ∨ count ≥ limit
    · simp only [if_pos hc]
      exact ih ys (i + 1) count (Nat.succ_ne_zero i)
    · simp only [if_neg hc]
      by_cases hf : (fieldsGo x).length ≥ 11
      · simp only [if_pos hf]
        exact congrArg _ (ih ys (i + 1) (count + 1) (Nat.succ_ne_zero i))
      · simp only [if_neg hf]
        exact ih ys (i + 1) count (Nat.succ_ne_zero i)

theorem usersLoop_remove_bad (line : String)
    (hbad : (splitGo line ':').length < 7) :
    ∀ (xs ys : List String),
      usersLoop OS.linux (xs ++ line :: ys) = usersLoop OS.linux (xs ++ ys) := by
  intro xs
  induction xs with
  | nil =>
    intro ys
    simp only [List.nil_append]
    by_cases he : line = ""
    · simp only [usersLoop, if_pos he]
    · have hd : ¬(OS.linux = OS.darwin) := by decide
      have h7 : ¬((splitGo line ':').length ≥ 7) := by omega
      simp only [usersLoop, if_neg he, if_neg hd, if_neg h7]
  | cons x xs ih =>
    intro ys
    simp only [List.cons_append, usersLoop]
    by_cases he : x = ""
    · simp only [if_pos he]
      exact ih ys
    · have hd : ¬(OS.linux = OS.darwin) := by decide
      simp only [if_neg he, if_neg hd]
      by_cases h7 : (splitGo x ':').length ≥ 7
      · simp only [if_pos h7]
        exact congrArg _ (ih ys)
      · simp only [if_neg h7]
        exact ih ys

/-! ## Positivity of collected ports -/

theorem portsLoop_pos : ∀ (lines : List String) (p : Int),
    p ∈ portsLoop lines → 0 < p := by
  intro lines
  induction lines with
  | nil => intro p hp; simp [portsLoop] at hp
  | cons line rest ih =>
    intro p hp
    simp only [portsLoop] at hp
    repeat' split at hp
    all_goals try exact ih p hp
    all_goals rcases List.mem_cons.mp hp with rfl | hmem
    all_goals try exact ih p hmem
    all_goals omega

theorem collectOpenPortsOSQ_pos (rows : List Row) (p : Int)
    (hp : p ∈ collectOpenPortsOSQ rows) : 0 < p := by
  simp only [collectOpenPortsOSQ, List.mem_filterMap] at hp
  rcases hp with ⟨r, -, hr⟩
  by_cases hpos : sscanfInt ((r.lookup "port").getD "") > 0
  · rw [if_pos hpos] at hr
    cases hr
    omega
  · rw [if_neg hpos] at hr
    cases hr

/-! ## Lemmas about the lifecycle manager's effect traces -/

theorem provision_not_health (e : Effect) (h : isProvisionEff e = true) :
    isHealthCheckEff e = false := by
  cases e <;> simp_all [isProvisionEff, isHealthCheckEff]

theorem provision_not_spawn (e : Effect) (h : isProvisionEff e = true) :
    isSpawnEff e = false := by
  cases e <;> simp_all [isProvisionEff, isSpawnEff]

theorem probePaths_all_provision (existing : List String) :
    ∀ ps, ((probePaths existing ps).2).all isProvisionEff = true := by
  intro ps
  induction ps with
  | nil => rfl
  | cons p ps ih =>
    simp only [probePaths]
    by_cases hc : existing.contains p = true
    · rw [if_pos hc]
      rfl
    · rw [if_neg hc, List.all_cons, ih]
      rfl

theorem installOSQuery_all_provision (env : OSQEnv) :
    ((installOSQuery env).2).all isProvisionEff = true := by
  rcases env with ⟨h1, h2, sd, mk, lp, ex, goos, bp, bi, ap, au, ai, yp, yi, sp⟩
  cases goos <;> cases bp <;> cases ap <;> cases au <;> cases yp <;> rfl

theorem findOSQueryBinary_all_provision (env : OSQEnv) :
    ((findOSQueryBinary env).2).all isProvisionEff = true := by
  rcases hp : (probePaths env.existingPaths (candidatePaths env)).1 with _ | p <;>
    simp [findOSQueryBinary, hp, List.all_append, isProvisionEff,
      probePaths_all_provision, installOSQuery_all_provision]

theorem all_provision_countP_health (l : List Effect)
    (h : l.all isProvisionEff = true) : l.countP isHealthCheckEff = 0 := by
  rw [List.countP_eq_zero]
  intro e he
  have := provision_not_health e (List.all_eq_true.mp h e he)
  simp [this]

theorem all_provision_countP_spawn (l : List Effect)
    (h : l.all isProvisionEff = true) : l.countP isSpawnEff = 0 := by
  rw [List.countP_eq_zero]
  intro e he
  have := provision_not_spawn e (List.all_eq_true.mp h e he)
  simp [this]

theorem startOSQueryDaemon_ok_shape (env : OSQEnv)
    (h : (startOSQueryDaemon env).1 = Except.ok ()) :
    ∃ p, (startOSQueryDaemon env).2 =
      Effect.mkdirAll env.socketDir ::
        ((findOSQueryBinary env).2 ++ [Effect.spawnDaemon p]) := by
  by_cases hmk : env.mkdirOk = false
  · simp [startOSQueryDaemon, hmk] at h
  · rcases hf : (findOSQueryBinary env).1 with e | p
    · simp [startOSQueryDaemon, hmk, hf] at h
    · by_cases hsp : env.spawnOk
      · exact ⟨p, by simp [startOSQueryDaemon, hmk, hf, hsp]⟩
      · simp [startOSQueryDaemon, hmk, hf, hsp] at h

/-! ## Claim theorems -/

/-- Claim C1, counterexample: the claim asserts that for L ≤ 0 the
fallback collector's `CollectProcesses(L)` behaves as if the limit were
50; on a concrete one-process `ps aux` output, limit 0 yields a result
different from limit 50 (empty versus one row), so the claim as stated
is false. -/
theorem claimC1_counterexample :
    (collectProcessesFB envLinuxSample 0).1.1 ≠
      (collectProcessesFB envLinuxSample 50).1.1 := by decide

/-- Claim C1, amended: for every limit L ≤ 0 the backend-client
collector applies the documented defaults (its process query equals the
query for limit 50 and its package query the one for limit 100), while
the fallback collector treats L ≤ 0 as a zero cutoff: it returns an
empty row list (and no error when the command succeeded), never
unlimited output and never an error caused by the limit. -/
theorem claimC1_nonpositive_limit (L : Int) (hL : L ≤ 0) :
    processesQuery L = processesQuery 50 ∧
    packagesQuery L = packagesQuery 100 ∧
    (∀ lines, collectProcessesLines L lines = []) ∧
    (∀ env out, env.psCmd = Except.ok out →
      (collectProcessesFB env L).1 = ([], none)) ∧
    (∀ env, (collectPackagesFB env L).1 = ([], none)) := by
  have hempty : ∀ lines, collectProcessesLines L lines = [] := fun lines =>
    psLoopIdx_skip_of_ge L lines 0 0 hL
  refine ⟨?_, ?_, hempty, ?_, ?_⟩
  · simp [processesQuery, if_pos hL]
  · simp [packagesQuery, if_pos hL]
  · intro env out hcmd
    rcases env with ⟨goos, ga, u, ps, n, bp, bc, dp, dc⟩
    simp only at hcmd
    subst hcmd
    cases goos
    · simp [collectProcessesFB, hempty]
    · simp [collectProcessesFB, hempty]
    · rfl
  · intro env
    rcases env with ⟨goos, ga, u, ps, n, bp, bc, dp, dc⟩
    cases goos
    · cases bp
      · rfl
      · cases bc
        · rfl
        · simp [collectPackagesFB, brewLoop_skip_of_ge ga L _ 0 hL]
    · cases dp
      · rfl
      · cases dc
        · rfl
        · simp [collectPackagesFB, dpkgLoop_skip_of_ge ga L _ 0 hL]
    · rfl

/-- Witness for the amended claim C1 at the concrete limit -5. -/
theorem claimC1_nonpositive_limit_witness :
    processesQuery (-5) = processesQuery 50 ∧
    (collectPackagesFB envLinuxSample (-5)).1 = ([], none) := by
  have h := claimC1_nonpositive_limit (-5) (by norm_num)
  exact ⟨h.1, h.2.2.2.2 envLinuxSample⟩

/-- Claim C2: for every limit L > 0 the backend queries interpolate
exactly L into their LIMIT clause, and every fallback parsing loop
(processes, brew packages, dpkg packages) returns at most L rows
whatever the tool output. -/
theorem claimC2_limit_bound (L : Int) (hL : 0 < L) :
    processesQuery L =
      "SELECT pid, name, path, cmdline, uid FROM processes LIMIT " ++
        toString L ++ ";" ∧
    packagesQuery L =
      "SELECT name, version, source, arch FROM packages LIMIT " ++
        toString L ++ ";" ∧
    (∀ lines, ((collectProcessesLines L lines).length : Int) ≤ L) ∧
    (∀ goarch lines, ((brewLoop goarch L 0 lines).length : Int) ≤ L) ∧
    (∀ goarch lines, ((dpkgLoop goarch L 0 lines).length : Int) ≤ L) := by
  have hnl : ¬(L ≤ 0) := by omega
  refine ⟨?_, ?_, ?_, ?_, ?_⟩
  · simp [processesQuery, if_neg hnl]
  · simp [packagesQuery, if_neg hnl]
  · intro lines
    simp only [collectProcessesLines]
    have := psLoopIdx_length_le L lines 0 0
    omega
  · intro goarch lines
    have := brewLoop_length_le goarch L lines 0
    omega
  · intro goarch lines
    have := dpkgLoop_length_le goarch L lines 0
    omega

/-- Witness for claim C2 at limit 1 on a two-process output. -/
theorem claimC2_limit_bound_witness :
    ((collectProcessesLines 1
      ["HDR", "root 1 0.0 0.1 4 1 ? Ss Jan01 0:00 /sbin/init",
       "root 2 0.0 0.1 4 1 ? Ss Jan01 0:00 /bin/sh"]).length : Int) ≤ 1 :=
  (claimC2_limit_bound 1 (by norm_num)).2.2.1 _

/-- Claim C3: every port returned by either collector's open-ports
operation is strictly positive (non-numeric or non-positive values are
silently dropped), and the netstat line of scenario 3 contributes port
8080 exactly once. -/
theorem claimC3_ports_positive :
    (∀ rows p, p ∈ collectOpenPortsOSQ rows → 0 < p) ∧
    (∀ lines p, p ∈ portsLoop lines → 0 < p) ∧
    portsLoop [sampleNetstatLine] = [8080] :=
  ⟨fun rows p hp => collectOpenPortsOSQ_pos rows p hp,
   fun lines p hp => portsLoop_pos lines p hp,
   by decide⟩

/-- Witness for claim C3: port 8080 parsed from the scenario-3 line is
in the result and positive. -/
theorem claimC3_ports_positive_witness :
    (8080 : Int) ∈ portsLoop [sampleNetstatLine] ∧ (0 : Int) < 8080 :=
  ⟨by decide, claimC3_ports_positive.2.1 [sampleNetstatLine] 8080 (by decide)⟩

/-- Claim C6, counterexample: the claim asserts every fallback operation
swallows command-invocation failures and returns no error; on a Linux
environment where `getent` fails to run, `CollectUsers` returns the
error (with the empty accumulated slice), so the claim as stated is
false. -/
theorem claimC6_counterexample :
    (collectUsersFB envCmdsFail).1 = ([], some "exec: getent: not found") := rfl

/-- Claim C6, amended: a parsing failure is swallowed line by line and a
clean command run returns no error, but a command-invocation failure in
`CollectUsers`, `CollectProcesses` or `CollectOpenPorts` is returned to
the caller together with the empty accumulated result; only
`CollectPackages` swallows invocation failures, never returning an
error. -/
theorem claimC6_error_policy (env : FBEnv) (msg out : String) :
    (env.goos ≠ OS.other → env.usersCmd = Except.error msg →
      (collectUsersFB env).1 = ([], some msg)) ∧
    (env.goos ≠ OS.other → env.psCmd = Except.error msg →
      ∀ L, (collectProcessesFB env L).1 = ([], some msg)) ∧
    (env.goos ≠ OS.other → env.netstatCmd = Except.error msg →
      (collectOpenPortsFB env).1 = ([], some msg)) ∧
    (∀ L, (collectPackagesFB env L).1.2 = none) ∧
    (env.usersCmd = Except.ok out → (collectUsersFB env).1.2 = none) ∧
    (env.psCmd = Except.ok out → ∀ L, (collectProcessesFB env L).1.2 = none) ∧
    (env.netstatCmd = Except.ok out → (collectOpenPortsFB env).1.2 = none) := by
  rcases env with ⟨goos, ga, u, ps, n, bp, bc, dp, dc⟩
  refine ⟨?_, ?_, ?_, ?_, ?_, ?_, ?_⟩
  · intro hg hu
    simp only at hg hu
    subst hu
    cases goos
    · rfl
    · rfl
    · exact absurd rfl hg
  · intro hg hp L
    simp only at hg hp
    subst hp
    cases goos
    · rfl
    · rfl
    · exact absurd rfl hg
  · intro hg hn
    simp only at hg hn
    subst hn
    cases goos
    · rfl
    · rfl
    · exact absurd rfl hg
  · intro L
    cases goos
    · cases bp
      · rfl
      · cases bc <;> rfl
    · cases dp
      · rfl
      · cases dc <;> rfl
    · rfl
  · intro hu
    simp only at hu
    subst hu
    cases goos <;> rfl
  · intro hp L
    simp only at hp
    subst hp
    cases goos <;> rfl
  · intro hn
    simp only at hn
    subst hn
    cases goos <;> rfl

/-- Witness for the amended claim C6 on the all-commands-fail Linux
environment and the all-commands-succeed Linux environment. -/
theorem claimC6_error_policy_witness :
    (collectOpenPortsFB envCmdsFail).1 = ([], some "exec: netstat: not found") ∧
    (collectPackagesFB envCmdsFail 200).1.2 = none ∧
    (collectUsersFB envLinuxSample).1.2 = none :=
  ⟨(claimC6_error_policy envCmdsFail "exec: netstat: not found" "").2.2.1
      (by decide) rfl,
   (claimC6_error_policy envCmdsFail "" "").2.2.2.1 200,
   (claimC6_error_policy envLinuxSample ""
      "root:x:0:0:root:/root:/bin/bash").2.2.2.2.1 rfl⟩

/-- Claim C7: for every limit, when the platform's package-manager
binary is absent from the search path, the fallback `CollectPackages`
performs only the lookup probe and returns an empty list with no
error. -/
theorem claimC7_missing_pkg_mgr (env : FBEnv) (L : Int) :
    (env.goos = OS.darwin → env.brewPresent = false →
      collectPackagesFB env L = (([], none), [Effect.lookPath "brew"])) ∧
    (env.goos = OS.linux → env.dpkgPresent = false →
      collectPackagesFB env L = (([], none), [Effect.lookPath "dpkg"])) := by
  rcases env with ⟨goos, ga, u, ps, n, bp, bc, dp, dc⟩
  constructor
  · intro hg hb
    simp only at hg hb
    subst hg
    subst hb
    rfl
  · intro hg hd
    simp only at hg hd
    subst hg
    subst hd
    rfl

/-- Witness for claim C7 on the brew-less darwin environment at
limit 100. -/
theorem claimC7_missing_pkg_mgr_witness :
    collectPackagesFB envDarwinNoBrew 100 = (([], none), [Effect.lookPath "brew"]) :=
  (claimC7_missing_pkg_mgr envDarwinNoBrew 100).1 rfl rfl

/-- Claim C8: removing a malformed line (a user line with fewer than 7
colon fields, a non-header process line with fewer than 11 whitespace
fields) from the tool output leaves the fallback parse result unchanged:
only that line is dropped. -/
theorem claimC8_malformed_line_skipped :
    (∀ xs ys line, (splitGo line ':').length < 7 →
      usersLoop OS.linux (xs ++ line :: ys) = usersLoop OS.linux (xs ++ ys)) ∧
    (∀ (limit : Int) xs ys line, xs ≠ [] → (fieldsGo line).length < 11 →
      collectProcessesLines limit (xs ++ line :: ys) =
        collectProcessesLines limit (xs ++ ys)) := by
  constructor
  · intro xs ys line h
    exact usersLoop_remove_bad line h xs ys
  · intro limit xs ys line hxs hbad
    cases xs with
    | nil => exact absurd rfl hxs
    | cons x xs' =>
      simp only [collectProcessesLines, List.cons_append, psLoopIdx, true_or,
        if_true]
      exact psLoopIdx_remove_bad limit line hbad xs' ys 1 0 one_ne_zero

/-- Witness for claim C8: dropping the short line `bad:line` from a
`getent` output, and a 3-field line from a `ps aux` output, leaves each
parse unchanged. -/
theorem claimC8_malformed_line_skipped_witness :
    usersLoop OS.linux
        (["root:x:0:0:root:/root:/bin/bash"] ++ "bad:line" ::
          ["d:x:2:2:d:/d:/bin/sh"]) =
      usersLoop OS.linux
        (["root:x:0:0:root:/root:/bin/bash"] ++ ["d:x:2:2:d:/d:/bin/sh"]) ∧
    collectProcessesLines 25 (["HDR"] ++ "a b c" ::
        ["root 1 0.0 0.1 4 1 ? Ss Jan01 0:00 /sbin/init"]) =
      collectProcessesLines 25
        (["HDR"] ++ ["root 1 0.0 0.1 4 1 ? Ss Jan01 0:00 /sbin/init"]) :=
  ⟨claimC8_malformed_line_skipped.1 _ _ "bad:line" (by decide),
   claimC8_malformed_line_skipped.2 25 ["HDR"] _ "a b c" (by decide) (by decide)⟩

/-- Claim C10: on a platform that is neither darwin nor linux, every
fallback operation returns an empty result with no error and performs no
external command. -/
theorem claimC10_unrecognized_platform (env : FBEnv) (L : Int)
    (h : env.goos = OS.other) :
    collectUsersFB env = (([], none), []) ∧
    collectProcessesFB env L = (([], none), []) ∧
    collectOpenPortsFB env = (([], none), []) ∧
    collectPackagesFB env L = (([], none), []) := by
  rcases env with ⟨goos, ga, u, ps, n, bp, bc, dp, dc⟩
  simp only at h
  subst h
  exact ⟨rfl, rfl, rfl, rfl⟩

/-- Witness for claim C10 on a riscv64 environment at limit 25. -/
theorem claimC10_unrecognized_platform_witness :
    collectUsersFB envOtherOS = (([], none), []) ∧
    collectPackagesFB envOtherOS 25 = (([], none), []) :=
  ⟨(claimC10_unrecognized_platform envOtherOS 25 rfl).1,
   (claimC10_unrecognized_platform envOtherOS 25 rfl).2.2.2⟩

/-- Claim C4: when the initial health-check succeeds,
`EnsureOSQueryRunning` returns success with a trace consisting of that
single health-check — no stat probe, no installation command, no
directory creation and no daemon spawn occur. -/
theorem claimC4_ready_no_side_effects (env : OSQEnv)
    (h : env.healthOk1 = true) :
    ensureOSQueryRunning env = (Except.ok (), [Effect.healthCheck]) := by
  simp [ensureOSQueryRunning, h]

/-- Witness for claim C4 on an environment with a healthy backend. -/
theorem claimC4_ready_no_side_effects_witness :
    ensureOSQueryRunning osqEnvHealthy = (Except.ok (), [Effect.healthCheck]) :=
  claimC4_ready_no_side_effects osqEnvHealthy rfl

/-- Claim C5: in any run whose daemon launch succeeds, the manager's
outcome is success exactly when the single re-check passes; the trace
ends with spawn–sleep–health-check; the part before the spawn contains
exactly the one initial health-check and no spawn; and in total there
are exactly two health-checks and one spawn, so neither the check nor
the detect/locate/install/start sequence is ever retried. -/
theorem claimC5_single_recheck (env : OSQEnv)
    (h1 : env.healthOk1 = false)
    (h2 : (startOSQueryDaemon env).1 = Except.ok ()) :
    ((ensureOSQueryRunning env).1 = Except.ok () ↔ env.healthOk2 = true) ∧
    (∃ pre p, (ensureOSQueryRunning env).2 =
        pre ++ [Effect.spawnDaemon p, Effect.sleep, Effect.healthCheck] ∧
      pre.countP isHealthCheckEff = 1 ∧ pre.countP isSpawnEff = 0) ∧
    ((ensureOSQueryRunning env).2).countP isHealthCheckEff = 2 ∧
    ((ensureOSQueryRunning env).2).countP isSpawnEff = 1 := by
  obtain ⟨p, hsh⟩ := startOSQueryDaemon_ok_shape env h2
  have hfind := findOSQueryBinary_all_provision env
  have hfh := all_provision_countP_health _ hfind
  have hfs := all_provision_countP_spawn _ hfind
  have htr : (ensureOSQueryRunning env).2 =
      (Effect.healthCheck :: Effect.mkdirAll env.socketDir ::
        (findOSQueryBinary env).2) ++
        [Effect.spawnDaemon p, Effect.sleep, Effect.healthCheck] := by
    cases hk2 : env.healthOk2 <;>
      simp [ensureOSQueryRunning, h1, h2, hsh, hk2, List.append_assoc]
  have hres : (ensureOSQueryRunning env).1 = Except.ok () ↔
      env.healthOk2 = true := by
    cases hk2 : env.healthOk2 <;> simp [ensureOSQueryRunning, h1, h2, hk2]
  refine ⟨hres, ⟨_, p, htr, ?_, ?_⟩, ?_, ?_⟩
  · simp [List.countP_cons, hfh, isHealthCheckEff]
  · simp [List.countP_cons, hfs, isSpawnEff]
  · rw [htr]
    simp [List.countP_append, List.countP_cons, hfh, isHealthCheckEff]
  · rw [htr]
    simp [List.countP_append, List.countP_cons, hfs, isSpawnEff]

/-- Witness for claim C5 on an environment whose daemon binary is found
in PATH, spawns, and passes the re-check. -/
theorem claimC5_single_recheck_witness :
    ((ensureOSQueryRunning osqEnvLaunch).1 = Except.ok () ↔
      osqEnvLaunch.healthOk2 = true) ∧
    ((ensureOSQueryRunning osqEnvLaunch).2).countP isHealthCheckEff = 2 ∧
    ((ensureOSQueryRunning osqEnvLaunch).2).countP isSpawnEff = 1 :=
  ⟨(claimC5_single_recheck osqEnvLaunch rfl rfl).1,
   (claimC5_single_recheck osqEnvLaunch rfl rfl).2.2.1,
   (claimC5_single_recheck osqEnvLaunch rfl rfl).2.2.2⟩

theorem fbTraces_no_socket (env : FBEnv) (L : Int) :
    ((collectUsersFB env).2).countP isSocketEff = 0 ∧
    ((collectProcessesFB env L).2).countP isSocketEff = 0 ∧
    ((collectOpenPortsFB env).2).countP isSocketEff = 0 ∧
    ((collectPackagesFB env L).2).countP isSocketEff = 0 := by
  rcases env with ⟨goos, ga, u, ps, n, bp, bc, dp, dc⟩
  refine ⟨?_, ?_, ?_, ?_⟩
  · cases goos <;> cases u <;> rfl
  · cases goos <;> cases ps <;> rfl
  · cases goos <;> cases n <;> rfl
  · cases goos <;> cases bp <;> cases dp <;> cases bc <;> cases dc <;> rfl

theorem collectUsersFB_linux_cmd (env : FBEnv) (h : env.goos = OS.linux) :
    (collectUsersFB env).2 = [Effect.runCmd "getent" ["passwd"]] := by
  rcases env with ⟨goos, ga, u, ps, n, bp, bc, dp, dc⟩
  simp only at h
  subst h
  cases u <;> rfl

/-- Claim C9: when the bootstrap fails, the run is rebound once to the
fallback collector; the whole post-selection trace of the four
operations contains no backend socket query; with a Linux environment,
the users operation invokes the account-listing utility (`getent`); and
every run's post-selection trace is all-socket or all-OS-command, never
mixed. -/
theorem claimC9_rebind_fallback (osqEnv : OSQEnv) (fbEnv : FBEnv) (msg : String)
    (h : (ensureOSQueryRunning osqEnv).1 = Except.error msg) :
    selectCollector (ensureOSQueryRunning osqEnv).1 = CKind.fb ∧
    (mainOpsTrace osqEnv fbEnv).countP isSocketEff = 0 ∧
    (fbEnv.goos = OS.linux →
      Effect.runCmd "getent" ["passwd"] ∈ mainOpsTrace osqEnv fbEnv) ∧
    (∀ (osqEnv' : OSQEnv) (fbEnv' : FBEnv),
      (mainOpsTrace osqEnv' fbEnv').countP isSocketEff = 0 ∨
      ∀ e ∈ mainOpsTrace osqEnv' fbEnv', isSocketEff e = true) := by
  have hsel : selectCollector (ensureOSQueryRunning osqEnv).1 = CKind.fb := by
    rw [h]
    rfl
  have hfbtrace : ∀ (o : OSQEnv) (f : FBEnv),
      selectCollector (ensureOSQueryRunning o).1 = CKind.fb →
      mainOpsTrace o f =
        (collectUsersFB f).2 ++ (collectProcessesFB f 25).2 ++
          (collectOpenPortsFB f).2 ++ (collectPackagesFB f 200).2 := by
    intro o f hs
    simp [mainOpsTrace, hs, opTrace]
  have hcount : ∀ (o : OSQEnv) (f : FBEnv),
      selectCollector (ensureOSQueryRunning o).1 = CKind.fb →
      (mainOpsTrace o f).countP isSocketEff = 0 := by
    intro o f hs
    rw [hfbtrace o f hs]
    have h25 := fbTraces_no_socket f 25
    have h200 := fbTraces_no_socket f 200
    simp [List.countP_append, h25.1, h25.2.1, h25.2.2.1, h200.2.2.2]
  refine ⟨hsel, hcount osqEnv fbEnv hsel, ?_, ?_⟩
  · intro hlin
    rw [hfbtrace osqEnv fbEnv hsel, collectUsersFB_linux_cmd fbEnv hlin]
    simp
  · intro o f
    rcases hres : (ensureOSQueryRunning o).1 with e | u
    · exact Or.inl (hcount o f (by rw [hres]; rfl))
    · refine Or.inr ?_
      intro e he
      have hs : selectCollector (ensureOSQueryRunning o).1 = CKind.osq := by
        rw [hres]
        rfl
      simp only [mainOpsTrace, hs, opTrace, List.mem_append,
        List.mem_singleton] at he
      rcases he with ((rfl | rfl) | rfl) | rfl <;> rfl

/-- Witness for claim C9 on the scenario-2 environment (backend
unreachable, binary absent, no package manager). -/
theorem claimC9_rebind_fallback_witness :
    selectCollector (ensureOSQueryRunning osqEnvInstallFail).1 = CKind.fb ∧
    (mainOpsTrace osqEnvInstallFail envLinuxSample).countP isSocketEff = 0 ∧
    Effect.runCmd "getent" ["passwd"] ∈
      mainOpsTrace osqEnvInstallFail envLinuxSample :=
  have h := claimC9_rebind_fallback osqEnvInstallFail envLinuxSample
    "osquery unavailable: osquery not found: no package manager found (apt/yum)"
    rfl
  ⟨h.1, h.2.1, h.2.2.1 rfl⟩

end ComplianceAgent
